import Mathlib

/-!
Verification of the realtime-fintech-rag-copilot repository against its
natural-language specification.

The repository ships scaffolding only (a file generator `script.py`, the
generated test suite `test_main.py`, and a diagram script); the
incremental vector index, query engine and agent adapter the spec
describes are not present as code.  Those components are therefore
modelled here directly from the spec's words, and each such definition's
doc comment names the missing component.  The generator's embedded test
suite and the committed test file are embedded verbatim for the
refinement claim about them.
-/

namespace FintechRag

/-- Modelled from the spec: record metadata, an ordered mapping of
key-value pairs (§3 Record). -/
abbrev Metadata := List (String × String)

/-- Modelled from the spec: an Index Entry, the Index's internal
representation `{record_id, vector, metadata snapshot, logical_time}`
(§3).  `live := false` represents the tombstone a delete leaves behind.
Vector components are modelled as integers. -/
structure IndexEntry where
  record_id : String
  vector : List Int
  metadata : Metadata
  logical_time : Nat
  live : Bool
deriving DecidableEq, Repr

/-- Modelled from the spec: the Incremental Vector Index state, an
association list of entries (at most one per record_id is the invariant
of §3, proved below, not baked into the type). -/
abbrev Index := List IndexEntry

/-- The slot an id occupies: the first entry carrying that record_id. -/
def lookupEntry (rid : String) (idx : Index) : Option IndexEntry :=
  idx.find? (fun e => e.record_id == rid)

/-- Modelled from the spec: the shared write path of `upsert` and
`delete` (§4.3): replace the entry for `rid` by `new` if and only if the
supplied logical_time `t` is at least the stored one, otherwise leave
the index unchanged; ids never stored before get a fresh slot. -/
def setSlot (rid : String) (new : IndexEntry) (t : Nat) : Index → Index
  | [] => [new]
  | e :: es =>
    if e.record_id = rid then
      (if e.logical_time ≤ t then new else e) :: es
    else
      e :: setSlot rid new t es

/-- Modelled from the spec: `upsert(record_id, vector, metadata,
logical_time)` (§4.3), replacing the entry iff the supplied logical_time
is at least the stored one (last-write-wins), a silent no-op otherwise. -/
def upsert (rid : String) (v : List Int) (md : Metadata) (t : Nat) (idx : Index) : Index :=
  setSlot rid ⟨rid, v, md, t, true⟩ t idx

/-- Modelled from the spec: `delete(record_id, logical_time)` (§4.3),
marking the entry absent (a tombstone) under the same freshness rule. -/
def delete (rid : String) (t : Nat) (idx : Index) : Index :=
  setSlot rid ⟨rid, [], [], t, false⟩ t idx

/-- Slot after a `setSlot` on an id never stored: the fresh slot. -/
theorem lookupEntry_setSlot_none (rid : String) (new : IndexEntry) (t : Nat)
    (hnew : new.record_id = rid) :
    ∀ idx : Index, lookupEntry rid idx = none →
      lookupEntry rid (setSlot rid new t idx) = some new := by
  intro idx
  induction idx with
  | nil => intro _; simp [lookupEntry, setSlot, List.find?, hnew]
  | cons e es ih =>
    intro hl
    by_cases he : e.record_id = rid
    · have hb : (e.record_id == rid) = true := by simp [he]
      simp [lookupEntry, List.find?, hb] at hl
    · have hb : (e.record_id == rid) = false := by simp [he]
      have hl' : lookupEntry rid es = none := by
        simpa [lookupEntry, List.find?, hb] using hl
      simpa [lookupEntry, setSlot, he, List.find?, hb] using ih hl'

/-- Slot after a `setSlot` whose key was stored: the freshness rule decides. -/
theorem lookupEntry_setSlot_some (rid : String) (new : IndexEntry) (t : Nat)
    (hnew : new.record_id = rid) :
    ∀ idx : Index, ∀ e : IndexEntry, lookupEntry rid idx = some e →
      lookupEntry rid (setSlot rid new t idx) =
        some (if e.logical_time ≤ t then new else e) := by
  intro idx
  induction idx with
  | nil => intro e hl; simp [lookupEntry, List.find?] at hl
  | cons a as ih =>
    intro e hl
    by_cases ha : a.record_id = rid
    · have hb : (a.record_id == rid) = true := by simp [ha]
      have hae : a = e := by
        simpa [lookupEntry, List.find?, hb] using hl
      subst hae
      by_cases hf : a.logical_time ≤ t <;>
        simp [lookupEntry, setSlot, ha, hf, List.find?, hnew, hb]
    · have hb : (a.record_id == rid) = false := by simp [ha]
      have hl' : lookupEntry rid as = some e := by
        simpa [lookupEntry, List.find?, hb] using hl
      simpa [lookupEntry, setSlot, ha, List.find?, hb] using ih e hl'

/-- `setSlot` for one id does not disturb any other id's slot. -/
theorem lookupEntry_setSlot_other (rid rid' : String) (new : IndexEntry) (t : Nat)
    (hnew : new.record_id = rid) (hne : rid' ≠ rid) :
    ∀ idx : Index, lookupEntry rid' (setSlot rid new t idx) = lookupEntry rid' idx := by
  intro idx
  induction idx with
  | nil =>
    have : (new.record_id == rid') = false := by
      simp [hnew]
      exact fun h => (hne h.symm).elim
    simp [lookupEntry, setSlot, List.find?, this]
  | cons e es ih =>
    by_cases he : e.record_id = rid
    · have hb : (e.record_id == rid') = false := by
        simp [he]
        exact fun h => (hne h.symm).elim
      have hb' : (new.record_id == rid') = false := by
        simp [hnew]
        exact fun h => (hne h.symm).elim
      have hr : (rid == rid') = false := by
        simp
        exact fun h => (hne h.symm).elim
      by_cases hf : e.logical_time ≤ t <;>
        simp [lookupEntry, setSlot, he, hf, List.find?, hb, hb', hr]
    · simp only [setSlot, if_neg he, lookupEntry, List.find?]
      cases hb : (e.record_id == rid') with
      | true => rfl
      | false => exact ih

/-- A stale `setSlot` (supplied time strictly below the stored one)
leaves the whole index unchanged. -/
theorem setSlot_stale (rid : String) (new : IndexEntry) (t : Nat)
    (idx : Index) (e : IndexEntry)
    (hl : lookupEntry rid idx = some e) (hst : t < e.logical_time) :
    setSlot rid new t idx = idx := by
  induction idx with
  | nil => simp [lookupEntry, List.find?] at hl
  | cons a as ih =>
    by_cases ha : a.record_id = rid
    · have hb : (a.record_id == rid) = true := by simp [ha]
      have hae : a = e := by
        simpa [lookupEntry, List.find?, hb] using hl
      have : ¬ a.logical_time ≤ t := by
        subst hae
        omega
      simp [setSlot, ha, this]
    · have hb : (a.record_id == rid) = false := by simp [ha]
      have hl' : lookupEntry rid as = some e := by
        simpa [lookupEntry, List.find?, hb] using hl
      simp [setSlot, ha, ih hl']

/-- C2: the upsert freshness dichotomy.  With an entry `e` stored for
`rid`, an `upsert` with logical_time `t` replaces the slot with the new
entry exactly when `e.logical_time ≤ t`, and for a stale `t` the whole
index is returned unchanged (the model is a total function, so a stale
write is a silent no-op, never an error). -/
theorem upsert_replaces_iff_fresh (idx : Index) (rid : String) (v : List Int)
    (md : Metadata) (t : Nat) (e : IndexEntry)
    (hl : lookupEntry rid idx = some e) :
    (lookupEntry rid (upsert rid v md t idx) = some ⟨rid, v, md, t, true⟩ ↔
      e.logical_time ≤ t) ∧
    (if e.logical_time ≤ t then
      lookupEntry rid (upsert rid v md t idx) = some ⟨rid, v, md, t, true⟩
    else upsert rid v md t idx = idx) := by
  have h := lookupEntry_setSlot_some rid ⟨rid, v, md, t, true⟩ t rfl idx e hl
  have hiff : lookupEntry rid (upsert rid v md t idx) =
      some ⟨rid, v, md, t, true⟩ ↔ e.logical_time ≤ t := by
    constructor
    · intro hrep
      by_contra hnot
      rw [upsert, h, if_neg hnot] at hrep
      have he : e = ⟨rid, v, md, t, true⟩ := Option.some.inj hrep
      have : e.logical_time = t := by rw [he]
      omega
    · intro hle
      rw [upsert, h, if_pos hle]
  refine ⟨hiff, ?_⟩
  by_cases hle : e.logical_time ≤ t
  · rw [if_pos hle]
    exact hiff.mpr hle
  · rw [if_neg hle]
    exact setSlot_stale rid _ t idx e hl (by omega)

/-- Witness for C2 at a concrete index: "doc-1" stored at time 1; an
upsert at time 0 is rejected and leaves the index unchanged. -/
theorem upsert_replaces_iff_fresh_witness :
    (lookupEntry "doc-1" (upsert "doc-1" [9] [] 0 (upsert "doc-1" [1] [] 1 [])) =
        some ⟨"doc-1", [9], [], 0, true⟩ ↔
      (⟨"doc-1", [1], [], 1, true⟩ : IndexEntry).logical_time ≤ 0) ∧
    (if (⟨"doc-1", [1], [], 1, true⟩ : IndexEntry).logical_time ≤ 0 then
      lookupEntry "doc-1" (upsert "doc-1" [9] [] 0 (upsert "doc-1" [1] [] 1 [])) =
        some ⟨"doc-1", [9], [], 0, true⟩
    else upsert "doc-1" [9] [] 0 (upsert "doc-1" [1] [] 1 []) =
      upsert "doc-1" [1] [] 1 []) :=
  upsert_replaces_iff_fresh (upsert "doc-1" [1] [] 1 []) "doc-1" [9] [] 0
    ⟨"doc-1", [1], [], 1, true⟩ (by decide)

/-- An upsert operation to a fixed record_id: vector, metadata and
logical_time. -/
abbrev UpsertOp := List Int × Metadata × Nat

/-- The entry a single upsert operation writes for `rid`. -/
def opEntry (rid : String) (o : UpsertOp) : IndexEntry :=
  ⟨rid, o.1, o.2.1, o.2.2, true⟩

/-- Modelled from the spec: a delivery order of upserts to one
record_id, applied left to right (§8, last-write-wins property). -/
def applyUpserts (rid : String) (ops : List UpsertOp) (idx : Index) : Index :=
  ops.foldl (fun acc o => upsert rid o.1 o.2.1 o.2.2 acc) idx

/-- The effect of one upsert on the slot of its own id, as a function of
the stored slot alone. -/
def slotStep (rid : String) (s : Option IndexEntry) (o : UpsertOp) : Option IndexEntry :=
  match s with
  | none => some (opEntry rid o)
  | some e => if e.logical_time ≤ o.2.2 then some (opEntry rid o) else some e

/-- One upsert acts on its id's slot exactly as `slotStep` says. -/
theorem lookupEntry_upsert_self (rid : String) (o : UpsertOp) (idx : Index) :
    lookupEntry rid (upsert rid o.1 o.2.1 o.2.2 idx) =
      slotStep rid (lookupEntry rid idx) o := by
  cases hl : lookupEntry rid idx with
  | none =>
    rw [slotStep]
    exact lookupEntry_setSlot_none rid _ _ rfl idx hl
  | some e =>
    rw [slotStep]
    have h := lookupEntry_setSlot_some rid (opEntry rid o) o.2.2 rfl idx e hl
    by_cases hf : e.logical_time ≤ o.2.2 <;> simp [upsert, opEntry, hf] at h ⊢ <;>
      exact h

/-- A whole delivery order acts on its id's slot as the fold of
`slotStep` over the operations. -/
theorem lookupEntry_applyUpserts (rid : String) (ops : List UpsertOp) (idx : Index) :
    lookupEntry rid (applyUpserts rid ops idx) =
      ops.foldl (slotStep rid) (lookupEntry rid idx) := by
  induction ops generalizing idx with
  | nil => rfl
  | cons o rest ih =>
    rw [applyUpserts, List.foldl_cons, List.foldl_cons,
      ← lookupEntry_upsert_self rid o idx]
    exact ih _

/-- A slot strictly fresher than every remaining operation survives the
rest of the fold untouched. -/
theorem foldl_slotStep_stale (rid : String) (e : IndexEntry) :
    ∀ ops : List UpsertOp, (∀ o ∈ ops, o.2.2 < e.logical_time) →
      ops.foldl (slotStep rid) (some e) = some e := by
  intro ops
  induction ops with
  | nil => intro _; rfl
  | cons o rest ih =>
    intro h
    have ho : o.2.2 < e.logical_time := h o (List.mem_cons_self o rest)
    have hstep : slotStep rid (some e) o = some e := by
      rw [slotStep, if_neg (by omega)]
    rw [List.foldl_cons, hstep]
    exact ih fun o' ho' => h o' (List.mem_cons_of_mem o ho')

/-- Folding `slotStep` from any not-too-fresh slot lands on the
operation carrying the greatest logical_time, provided the times are
pairwise distinct. -/
theorem foldl_slotStep_max (rid : String) :
    ∀ ops : List UpsertOp, ∀ s : Option IndexEntry, ∀ m : UpsertOp,
      m ∈ ops → (∀ o ∈ ops, o.2.2 ≤ m.2.2) →
      ops.Pairwise (fun a b => a.2.2 ≠ b.2.2) →
      (∀ e, s = some e → e.logical_time ≤ m.2.2) →
      ops.foldl (slotStep rid) s = some (opEntry rid m) := by
  intro ops
  induction ops with
  | nil => intro s m hm; exact absurd hm (List.not_mem_nil m)
  | cons o rest ih =>
    intro s m hm hmax hnd hs
    rw [List.foldl_cons]
    rcases List.mem_cons.1 hm with heq | hmem
    · subst heq
      have hrest : ∀ o' ∈ rest, o'.2.2 < m.2.2 := by
        intro o' ho'
        have h1 : o'.2.2 ≤ m.2.2 := hmax o' (List.mem_cons_of_mem m ho')
        have h2 : m.2.2 ≠ o'.2.2 := (List.pairwise_cons.1 hnd).1 o' ho'
        omega
      have hstep : slotStep rid s m = some (opEntry rid m) := by
        cases s with
        | none => rfl
        | some e =>
          have : e.logical_time ≤ m.2.2 := hs e rfl
          rw [slotStep, if_pos this]
      rw [hstep]
      exact foldl_slotStep_stale rid (opEntry rid m) rest hrest
    · have hom : o.2.2 ≠ m.2.2 := (List.pairwise_cons.1 hnd).1 m hmem
      have hole : o.2.2 ≤ m.2.2 := hmax o (List.mem_cons_self o rest)
      refine ih (slotStep rid s o) m hmem
        (fun o' ho' => hmax o' (List.mem_cons_of_mem o ho'))
        (List.pairwise_cons.1 hnd).2 ?_
      intro e he
      cases s with
      | none =>
        have : e = opEntry rid o := by
          rw [slotStep] at he
          exact (Option.some.inj he).symm
        rw [this]
        exact hole
      | some e₀ =>
        have he₀ : e₀.logical_time ≤ m.2.2 := hs e₀ rfl
        rw [slotStep] at he
        by_cases hf : e₀.logical_time ≤ o.2.2
        · rw [if_pos hf] at he
          have : e = opEntry rid o := (Option.some.inj he).symm
          rw [this]
          exact hole
        · rw [if_neg hf] at he
          have : e = e₀ := (Option.some.inj he).symm
          rw [this]
          exact he₀

/-- C1: last-write-wins order-independence.  For any delivery order of a
finite set of upserts to one record_id with pairwise distinct logical
times, the final slot for that id equals the slot produced by the single
upsert carrying the greatest logical_time alone. -/
theorem applyUpserts_last_write_wins (rid : String) (ops : List UpsertOp)
    (m : UpsertOp) (hm : m ∈ ops) (hmax : ∀ o ∈ ops, o.2.2 ≤ m.2.2)
    (hnd : ops.Pairwise (fun a b => a.2.2 ≠ b.2.2)) :
    lookupEntry rid (applyUpserts rid ops []) =
      lookupEntry rid (upsert rid m.1 m.2.1 m.2.2 []) := by
  rw [lookupEntry_applyUpserts]
  have h1 : ops.foldl (slotStep rid) (lookupEntry rid ([] : Index)) =
      some (opEntry rid m) := by
    refine foldl_slotStep_max rid ops _ m hm hmax hnd ?_
    intro e he
    simp [lookupEntry, List.find?] at he
  rw [h1, lookupEntry_upsert_self rid m []]
  rfl

/-- Witness for C1: three upserts to "doc-1" delivered out of logical
order (times 2, 5, 3); the final slot equals that of the single upsert
at time 5. -/
theorem applyUpserts_last_write_wins_witness :
    lookupEntry "doc-1"
        (applyUpserts "doc-1" [([1], [], 2), ([2], [], 5), ([3], [], 3)] []) =
      lookupEntry "doc-1" (upsert "doc-1" [2] [] 5 []) :=
  applyUpserts_last_write_wins "doc-1" [([1], [], 2), ([2], [], 5), ([3], [], 3)]
    ([2], [], 5) (by decide) (by decide) (by decide)

/-- Modelled from the spec: the similarity function (inner product, one
of the two configurable choices of §4.3), over integer vectors. -/
def dot : List Int → List Int → Int
  | a :: as, b :: bs => a * b + dot as bs
  | _, _ => 0

/-- Similarity of a query vector to an entry. -/
def score (v : List Int) (e : IndexEntry) : Int := dot v e.vector

/-- Modelled from the spec: the Context Bundle order (§3): descending
similarity score, ties broken by descending logical_time. -/
def rankRel (a b : IndexEntry × Int) : Prop :=
  b.2 < a.2 ∨ (a.2 = b.2 ∧ b.1.logical_time ≤ a.1.logical_time)

instance : DecidableRel rankRel := fun a b => by
  unfold rankRel
  infer_instance

instance : IsTotal (IndexEntry × Int) rankRel := by
  constructor
  intro a b
  rcases lt_trichotomy a.2 b.2 with h | h | h
  · exact Or.inr (Or.inl h)
  · rcases Nat.le_total b.1.logical_time a.1.logical_time with ht | ht
    · exact Or.inl (Or.inr ⟨h, ht⟩)
    · exact Or.inr (Or.inr ⟨h.symm, ht⟩)
  · exact Or.inl (Or.inl h)

instance : IsTrans (IndexEntry × Int) rankRel := by
  constructor
  intro a b c hab hbc
  rcases hab with h1 | ⟨h1, h1t⟩ <;> rcases hbc with h2 | ⟨h2, h2t⟩
  · exact Or.inl (by omega)
  · exact Or.inl (by omega)
  · exact Or.inl (by omega)
  · exact Or.inr ⟨by omega, by omega⟩

/-- Modelled from the spec: the live entries passing the filters, the
eligible set ranking is computed over (§4.3, §4.4). -/
def eligible (filt : Metadata → Bool) (idx : Index) : List IndexEntry :=
  idx.filter (fun e => e.live && filt e.metadata)

/-- Entries paired with their similarity to the query vector. -/
def scored (v : List Int) (es : List IndexEntry) : List (IndexEntry × Int) :=
  es.map (fun e => (e, score v e))

/-- Modelled from the spec: `query(vector, top_k, filters)` (§4.3):
filter first, rank all eligible entries by descending similarity with
ties broken by descending logical_time, then truncate to `top_k`. -/
def query (v : List Int) (k : Nat) (filt : Metadata → Bool) (idx : Index) :
    List (IndexEntry × Int) :=
  (List.insertionSort rankRel (scored v (eligible filt idx))).take k

/-- C5: exact top-k query semantics.  For positive `k` the result has
exactly `min k |eligible|` pairs; each returned pair is a live entry of
the index that passes the filters, carrying its similarity score; the
result is sorted by non-increasing similarity with ties broken by
descending logical_time; and no eligible entry left out ranks above any
returned pair (filter-then-rank exactness). -/
theorem query_exact_top_k (v : List Int) (k : Nat) (filt : Metadata → Bool)
    (idx : Index) (_hk : 0 < k) :
    (query v k filt idx).length = min k (eligible filt idx).length ∧
    (query v k filt idx).all (fun p =>
      decide (p.1 ∈ idx) && p.1.live && filt p.1.metadata && (p.2 == score v p.1)) = true ∧
    (query v k filt idx).Pairwise rankRel ∧
    (scored v (eligible filt idx)).all (fun q =>
      decide (q ∈ query v k filt idx) ||
        (query v k filt idx).all (fun p => decide (rankRel p q))) = true := by
  have hperm : List.Perm (List.insertionSort rankRel (scored v (eligible filt idx)))
      (scored v (eligible filt idx)) := List.perm_insertionSort rankRel _
  have hsorted : (List.insertionSort rankRel (scored v (eligible filt idx))).Pairwise
      rankRel := List.sorted_insertionSort rankRel _
  refine ⟨?_, ?_, ?_, ?_⟩
  · rw [query, List.length_take, hperm.length_eq, scored, List.length_map,
      Nat.min_comm]
  · rw [List.all_eq_true]
    intro p hp
    have hp' : p ∈ List.insertionSort rankRel (scored v (eligible filt idx)) :=
      List.mem_of_mem_take hp
    have hp'' : p ∈ scored v (eligible filt idx) := hperm.mem_iff.1 hp'
    rcases List.mem_map.1 hp'' with ⟨e, he, hpe⟩
    rcases List.mem_filter.1 he with ⟨hei, hcond⟩
    have hl : e.live = true ∧ filt e.metadata = true := by
      constructor <;> simp_all
    subst hpe
    simp [hei, hl.1, hl.2]
  · exact hsorted.sublist (List.take_sublist k _)
  · rw [List.all_eq_true]
    intro q hq
    by_cases hmem : q ∈ query v k filt idx
    · simp [hmem]
    · have hall : ∀ p ∈ query v k filt idx, rankRel p q := by
        intro p hp
        set sorted := List.insertionSort rankRel (scored v (eligible filt idx)) with hs
        have hqmem : q ∈ sorted := hperm.mem_iff.2 hq
        have hsplit : sorted.take k ++ sorted.drop k = sorted :=
          List.take_append_drop k sorted
        have hdrop : q ∈ sorted.drop k := by
          rcases (List.mem_append.1 (hsplit ▸ hqmem)) with h | h
          · exact absurd h hmem
          · exact h
        have := List.pairwise_append.1 (hsplit ▸ hsorted)
        exact this.2.2 p hp _ hdrop
      simp only [Bool.or_eq_true, List.all_eq_true, decide_eq_true_eq]
      exact Or.inr hall

/-- A small concrete index used by witnesses: three live entries, the
third carrying news metadata. -/
def demoIndex : Index :=
  upsert "doc-3" [5, 5] [("kind", "news")] 3
    (upsert "doc-2" [0, 1] [] 2 (upsert "doc-1" [1, 0] [] 1 []))

/-- The filter used by witnesses: everything but news records. -/
def noNews (md : Metadata) : Bool := md != [("kind", "news")]

/-- Witness for C5 at a concrete index with two live entries passing the
filter and a filtered-out third. -/
theorem query_exact_top_k_witness :
    (query [2, 1] 2 noNews demoIndex).length =
      min 2 (eligible noNews demoIndex).length ∧
    (query [2, 1] 2 noNews demoIndex).all (fun p =>
      decide (p.1 ∈ demoIndex) && p.1.live && noNews p.1.metadata &&
        (p.2 == score [2, 1] p.1)) = true ∧
    (query [2, 1] 2 noNews demoIndex).Pairwise rankRel ∧
    (scored [2, 1] (eligible noNews demoIndex)).all (fun q =>
      decide (q ∈ query [2, 1] 2 noNews demoIndex) ||
        (query [2, 1] 2 noNews demoIndex).all
          (fun p => decide (rankRel p q))) = true :=
  query_exact_top_k [2, 1] 2 noNews demoIndex (by decide)

/-- Modelled from the spec: the kind of a Change Event (§3). -/
inductive EventKind
  | upsert
  | delete
deriving DecidableEq, Repr

/-- Modelled from the spec: a Change Event `{record_id, kind, payload}`
(§3); for a delete the payload fields are ignored. -/
structure ChangeEvent where
  record_id : String
  kind : EventKind
  vector : List Int
  metadata : Metadata
  logical_time : Nat
deriving DecidableEq, Repr

/-- Applying one Change Event to the Index dispatches on its kind. -/
def applyEvent (ev : ChangeEvent) (idx : Index) : Index :=
  match ev.kind with
  | .upsert => upsert ev.record_id ev.vector ev.metadata ev.logical_time idx
  | .delete => delete ev.record_id ev.logical_time idx

/-- Applying a whole history of Change Events, oldest first. -/
def applyEvents (evs : List ChangeEvent) (idx : Index) : Index :=
  evs.foldl (fun acc ev => applyEvent ev acc) idx

/-- At most one entry (live or tombstone) per record_id. -/
def keysNodup (idx : Index) : Prop :=
  idx.Pairwise (fun a b => a.record_id ≠ b.record_id)

instance : DecidablePred keysNodup := fun idx => by
  unfold keysNodup
  infer_instance

/-- Every entry of a `setSlot` result is the new entry or an old one. -/
theorem mem_setSlot (rid : String) (new : IndexEntry) (t : Nat) :
    ∀ idx : Index, ∀ e ∈ setSlot rid new t idx, e = new ∨ e ∈ idx := by
  intro idx
  induction idx with
  | nil =>
    intro e he
    simp [setSlot] at he
    exact Or.inl he
  | cons a as ih =>
    intro e he
    by_cases ha : a.record_id = rid
    · rw [setSlot, if_pos ha] at he
      rcases List.mem_cons.1 he with h | h
      · by_cases hf : a.logical_time ≤ t
        · rw [if_pos hf] at h
          exact Or.inl h
        · rw [if_neg hf] at h
          exact Or.inr (List.mem_cons.2 (Or.inl h))
      · exact Or.inr (List.mem_cons.2 (Or.inr h))
    · rw [setSlot, if_neg ha] at he
      rcases List.mem_cons.1 he with h | h
      · exact Or.inr (List.mem_cons.2 (Or.inl h))
      · rcases ih e h with h' | h'
        · exact Or.inl h'
        · exact Or.inr (List.mem_cons.2 (Or.inr h'))

/-- `setSlot` keeps at most one entry per record_id. -/
theorem keysNodup_setSlot (rid : String) (new : IndexEntry) (t : Nat)
    (hnew : new.record_id = rid) :
    ∀ idx : Index, keysNodup idx → keysNodup (setSlot rid new t idx) := by
  intro idx
  induction idx with
  | nil => intro _; simp [setSlot, keysNodup]
  | cons a as ih =>
    intro hnd
    rcases List.pairwise_cons.1 hnd with ⟨hhead, htail⟩
    by_cases ha : a.record_id = rid
    · rw [setSlot, if_pos ha]
      refine List.pairwise_cons.2 ⟨?_, htail⟩
      intro b hb
      by_cases hf : a.logical_time ≤ t
      · rw [if_pos hf, hnew, ← ha]
        exact hhead b hb
      · rw [if_neg hf]
        exact hhead b hb
    · rw [setSlot, if_neg ha]
      refine List.pairwise_cons.2 ⟨?_, ih htail⟩
      intro b hb
      rcases mem_setSlot rid new t as b hb with h | h
      · rw [h, hnew]
        exact ha
      · exact hhead b h

/-- With unique keys, any member entry is its own id's slot. -/
theorem lookupEntry_of_mem (idx : Index) (e : IndexEntry)
    (hnd : keysNodup idx) (he : e ∈ idx) :
    lookupEntry e.record_id idx = some e := by
  induction idx with
  | nil => exact absurd he (List.not_mem_nil e)
  | cons a as ih =>
    rcases List.pairwise_cons.1 hnd with ⟨hhead, htail⟩
    rcases List.mem_cons.1 he with h | h
    · subst h
      simp [lookupEntry, List.find?]
    · have hne : a.record_id ≠ e.record_id := hhead e h
      have hb : (a.record_id == e.record_id) = false := by simp [hne]
      simpa [lookupEntry, List.find?, hb] using ih htail h

/-- C4: a delete is final against stale traffic.  Starting from any
index with unique keys on which a `delete rid t` actually applies
(every stored slot for `rid` is not fresher than `t`), and following it
with any interleaving of events whose operations on `rid` are only
upserts of logical_time strictly below `t`, no query ever returns an
entry for `rid`. -/
theorem delete_blocks_stale_upserts (idx : Index) (rid : String) (t : Nat)
    (evs : List ChangeEvent)
    (hnd : keysNodup idx)
    (happ : (lookupEntry rid idx).all (fun e => decide (e.logical_time ≤ t)) = true)
    (hevs : ∀ ev ∈ evs, ev.record_id = rid →
      ev.kind = EventKind.upsert ∧ ev.logical_time < t) :
    ∀ v : List Int, ∀ k : Nat, ∀ filt : Metadata → Bool,
      (query v k filt (applyEvents evs (delete rid t idx))).all
        (fun p => p.1.record_id != rid) = true := by
  have tomb : lookupEntry rid (delete rid t idx) = some ⟨rid, [], [], t, false⟩ := by
    cases hl : lookupEntry rid idx with
    | none => exact lookupEntry_setSlot_none rid _ t rfl idx hl
    | some e =>
      have hle : e.logical_time ≤ t := by
        rw [hl] at happ
        simpa [Option.all] using happ
      have h := lookupEntry_setSlot_some rid ⟨rid, [], [], t, false⟩ t rfl idx e hl
      rw [delete, h, if_pos hle]
  have tombnd : keysNodup (delete rid t idx) := keysNodup_setSlot rid _ t rfl idx hnd
  have main : ∀ evs' : List ChangeEvent, ∀ cur : Index,
      lookupEntry rid cur = some ⟨rid, [], [], t, false⟩ → keysNodup cur →
      (∀ ev ∈ evs', ev.record_id = rid →
        ev.kind = EventKind.upsert ∧ ev.logical_time < t) →
      lookupEntry rid (applyEvents evs' cur) = some ⟨rid, [], [], t, false⟩ ∧
        keysNodup (applyEvents evs' cur) := by
    intro evs'
    induction evs' with
    | nil => intro cur h1 h2 _; exact ⟨h1, h2⟩
    | cons ev rest ih =>
      intro cur h1 h2 h3
      have hstep : lookupEntry rid (applyEvent ev cur) = some ⟨rid, [], [], t, false⟩ ∧
          keysNodup (applyEvent ev cur) := by
        by_cases hr : ev.record_id = rid
        · rcases h3 ev (List.mem_cons_self ev rest) hr with ⟨hk, ht⟩
          have : applyEvent ev cur = cur := by
            rw [applyEvent, hk, upsert, hr]
            exact setSlot_stale rid _ ev.logical_time cur ⟨rid, [], [], t, false⟩ h1
              (by simp; omega)
          rw [this]
          exact ⟨h1, h2⟩
        · cases hk : ev.kind with
          | upsert =>
            constructor
            · rw [applyEvent, hk, upsert]
              exact (lookupEntry_setSlot_other ev.record_id rid _ _ rfl
                (fun h => hr h.symm) cur).trans h1
            · rw [applyEvent, hk, upsert]
              exact keysNodup_setSlot ev.record_id _ _ rfl cur h2
          | delete =>
            constructor
            · rw [applyEvent, hk, delete]
              exact (lookupEntry_setSlot_other ev.record_id rid _ _ rfl
                (fun h => hr h.symm) cur).trans h1
            · rw [applyEvent, hk, delete]
              exact keysNodup_setSlot ev.record_id _ _ rfl cur h2
      have h3' : ∀ ev' ∈ rest, ev'.record_id = rid →
          ev'.kind = EventKind.upsert ∧ ev'.logical_time < t :=
        fun ev' hm => h3 ev' (List.mem_cons_of_mem ev hm)
      exact ih (applyEvent ev cur) hstep.1 hstep.2 h3'
  rcases main evs (delete rid t idx) tomb tombnd hevs with ⟨hfin, hfinnd⟩
  intro v k filt
  rw [List.all_eq_true]
  intro p hp
  have hp' : p ∈ List.insertionSort rankRel
      (scored v (eligible filt (applyEvents evs (delete rid t idx)))) :=
    List.mem_of_mem_take hp
  have hp'' : p ∈ scored v (eligible filt (applyEvents evs (delete rid t idx))) :=
    (List.perm_insertionSort rankRel _).mem_iff.1 hp'
  rcases List.mem_map.1 hp'' with ⟨e, he, hpe⟩
  rcases List.mem_filter.1 he with ⟨hei, hcond⟩
  have hlive : e.live = true := by simp_all
  rw [← hpe]
  simp only [bne_iff_ne, ne_eq, decide_eq_true_eq]
  intro hrid
  have := lookupEntry_of_mem _ e hfinnd hei
  rw [hrid, hfin] at this
  have : e = ⟨rid, [], [], t, false⟩ := (Option.some.inj this).symm
  rw [this] at hlive
  exact Bool.false_ne_true hlive

/-- Witness for C4: delete "doc-1" at time 4 on the demo index, then a
stale upsert of "doc-1" at time 2 and a fresh upsert of "doc-4"; no
query result carries "doc-1". -/
theorem delete_blocks_stale_upserts_witness :
    (query [2, 1] 3 noNews
        (applyEvents
          [⟨"doc-1", EventKind.upsert, [9, 9], [], 2⟩,
           ⟨"doc-4", EventKind.upsert, [1, 1], [], 7⟩]
          (delete "doc-1" 4 demoIndex))).all
      (fun p => p.1.record_id != "doc-1") = true :=
  delete_blocks_stale_upserts demoIndex "doc-1" 4
    [⟨"doc-1", EventKind.upsert, [9, 9], [], 2⟩,
     ⟨"doc-4", EventKind.upsert, [1, 1], [], 7⟩]
    (by decide) (by decide) (by decide) [2, 1] 3 noNews

/-- Whether an event kind leaves a live entry behind. -/
def kindLive : EventKind → Bool
  | .upsert => true
  | .delete => false

/-- The entry a Change Event writes when it is applied: a full record
for an upsert, a tombstone for a delete. -/
def eventEntry (ev : ChangeEvent) : IndexEntry :=
  match ev.kind with
  | .upsert => ⟨ev.record_id, ev.vector, ev.metadata, ev.logical_time, true⟩
  | .delete => ⟨ev.record_id, [], [], ev.logical_time, false⟩

/-- Both event kinds act on the index through `setSlot`. -/
theorem applyEvent_eq_setSlot (ev : ChangeEvent) (idx : Index) :
    applyEvent ev idx = setSlot ev.record_id (eventEntry ev) ev.logical_time idx := by
  cases hk : ev.kind <;> simp [applyEvent, upsert, delete, eventEntry, hk]

theorem eventEntry_record_id (ev : ChangeEvent) :
    (eventEntry ev).record_id = ev.record_id := by
  cases hk : ev.kind <;> simp [eventEntry, hk]

theorem eventEntry_logical_time (ev : ChangeEvent) :
    (eventEntry ev).logical_time = ev.logical_time := by
  cases hk : ev.kind <;> simp [eventEntry, hk]

theorem eventEntry_live (ev : ChangeEvent) :
    (eventEntry ev).live = kindLive ev.kind := by
  cases hk : ev.kind <;> simp [eventEntry, kindLive, hk]

/-- Every index operation keeps at most one entry per record_id. -/
theorem keysNodup_applyEvents :
    ∀ evs : List ChangeEvent, ∀ idx : Index, keysNodup idx →
      keysNodup (applyEvents evs idx) := by
  intro evs
  induction evs with
  | nil => intro idx h; exact h
  | cons ev rest ih =>
    intro idx h
    rw [applyEvents, List.foldl_cons]
    refine ih (applyEvent ev idx) ?_
    rw [applyEvent_eq_setSlot]
    exact keysNodup_setSlot ev.record_id _ _ (eventEntry_record_id ev) idx h

/-- Time and kind of the most recent applied Change Event for one id,
tracked across a history: an event is applied when its logical_time is
at least the tracked one (the freshness rule), ignored otherwise. -/
def trackStep (rid : String) (s : Option (Nat × EventKind)) (ev : ChangeEvent) :
    Option (Nat × EventKind) :=
  if ev.record_id = rid then
    match s with
    | none => some (ev.logical_time, ev.kind)
    | some (t, k) =>
      if t ≤ ev.logical_time then some (ev.logical_time, ev.kind) else some (t, k)
  else s

/-- The most recent applied Change Event for `rid` in a history. -/
def lastApplied (rid : String) (evs : List ChangeEvent) : Option (Nat × EventKind) :=
  evs.foldl (trackStep rid) none

/-- Whether the index holds a live entry for `rid`. -/
def isLiveId (rid : String) (idx : Index) : Bool :=
  match lookupEntry rid idx with
  | some e => e.live
  | none => false

/-- The slot for an id agrees with the tracked last applied event. -/
def slotMatches : Option IndexEntry → Option (Nat × EventKind) → Prop
  | none, none => True
  | some e, some (t, k) => e.logical_time = t ∧ e.live = kindLive k
  | _, _ => False

/-- One event preserves the slot-tracker agreement for every id. -/
theorem slotMatches_applyEvent (rid : String) (ev : ChangeEvent) (idx : Index)
    (s : Option (Nat × EventKind))
    (hm : slotMatches (lookupEntry rid idx) s) :
    slotMatches (lookupEntry rid (applyEvent ev idx)) (trackStep rid s ev) := by
  by_cases hr : ev.record_id = rid
  · cases hl : lookupEntry rid idx with
    | none =>
      cases s with
      | none =>
        have h1 : lookupEntry rid (applyEvent ev idx) = some (eventEntry ev) := by
          rw [applyEvent_eq_setSlot, hr]
          exact lookupEntry_setSlot_none rid _ _
            ((eventEntry_record_id ev).trans hr) idx hl
        rw [h1, trackStep, if_pos hr]
        exact ⟨eventEntry_logical_time ev, eventEntry_live ev⟩
      | some p =>
        rw [hl] at hm
        exact False.elim hm
    | some e =>
      cases s with
      | none =>
        rw [hl] at hm
        exact False.elim hm
      | some p =>
        rcases p with ⟨t, k⟩
        rw [hl] at hm
        rcases hm with ⟨het, hek⟩
        have h1 : lookupEntry rid (applyEvent ev idx) =
            some (if e.logical_time ≤ ev.logical_time then eventEntry ev else e) := by
          rw [applyEvent_eq_setSlot, hr]
          exact lookupEntry_setSlot_some rid _ _
            ((eventEntry_record_id ev).trans hr) idx e hl
        rw [h1, trackStep, if_pos hr]
        by_cases hf : e.logical_time ≤ ev.logical_time
        · rw [if_pos hf, if_pos (het ▸ hf)]
          exact ⟨eventEntry_logical_time ev, eventEntry_live ev⟩
        · rw [if_neg hf, if_neg (het ▸ hf)]
          exact ⟨het, hek⟩
  · have h1 : lookupEntry rid (applyEvent ev idx) = lookupEntry rid idx := by
      rw [applyEvent_eq_setSlot]
      exact lookupEntry_setSlot_other ev.record_id rid _ _
        (eventEntry_record_id ev) (fun h => hr h.symm) idx
    rw [h1]
    have h2 : trackStep rid s ev = s := by
      cases s <;> simp [trackStep, hr]
    rw [h2]
    exact hm

/-- A whole history preserves the slot-tracker agreement. -/
theorem slotMatches_applyEvents (rid : String) :
    ∀ evs : List ChangeEvent, ∀ idx : Index, ∀ s : Option (Nat × EventKind),
      slotMatches (lookupEntry rid idx) s →
      slotMatches (lookupEntry rid (applyEvents evs idx))
        (evs.foldl (trackStep rid) s) := by
  intro evs
  induction evs with
  | nil => intro idx s hm; exact hm
  | cons ev rest ih =>
    intro idx s hm
    rw [applyEvents, List.foldl_cons, List.foldl_cons]
    exact ih (applyEvent ev idx) (trackStep rid s ev)
      (slotMatches_applyEvent rid ev idx s hm)

/-- C7: the index invariant over every reachable state.  Any history of
Change Events applied from the empty index keeps at most one entry per
record_id, and an id holds a live entry exactly when the most recent
applied Change Event for it was an upsert. -/
theorem index_invariant (evs : List ChangeEvent) (rid : String) :
    keysNodup (applyEvents evs []) ∧
    (isLiveId rid (applyEvents evs []) = true ↔
      ∃ t, lastApplied rid evs = some (t, EventKind.upsert)) := by
  constructor
  · exact keysNodup_applyEvents evs [] (by rw [keysNodup]; exact List.Pairwise.nil)
  · have h0 : slotMatches (lookupEntry rid ([] : Index)) none := by
      rw [show lookupEntry rid ([] : Index) = none from rfl, slotMatches]
      trivial
    have h := slotMatches_applyEvents rid evs [] none h0
    rw [show (lastApplied rid evs) = evs.foldl (trackStep rid) none from rfl]
    cases hl : lookupEntry rid (applyEvents evs []) with
    | none =>
      rw [hl] at h
      cases hs : evs.foldl (trackStep rid) none with
      | none =>
        rw [isLiveId, hl]
        simp [hs]
      | some p =>
        rw [hs] at h
        exact False.elim h
    | some e =>
      rw [hl] at h
      cases hs : evs.foldl (trackStep rid) none with
      | none =>
        rw [hs] at h
        exact False.elim h
      | some p =>
        rcases p with ⟨t, k⟩
        rw [hs] at h
        rcases h with ⟨het, hek⟩
        rw [isLiveId, hl]
        cases hk : k with
        | upsert => simp [hek, kindLive, hk]
        | delete => simp [hek, kindLive, hk]

/-- Modelled from the spec: the Embedding Provider failure taxonomy
(§6, §7): transient (retryable) or permanent. -/
inductive EmbedErr
  | transient (msg : String)
  | permanent (msg : String)
deriving DecidableEq, Repr

/-- Modelled from the spec: invoking the Embedding Provider with a
bounded retry budget for transient failures (§7): `emb text i` is the
outcome of attempt number `i`; a permanent failure or an exhausted
budget surfaces the failure message. -/
def retryEmbed (emb : String → Nat → Except EmbedErr (List Int)) (text : String) :
    Nat → Nat → Except String (List Int)
  | budget, i =>
    match emb text i with
    | .ok v => .ok v
    | .error (.permanent m) => .error m
    | .error (.transient m) =>
      match budget with
      | 0 => .error m
      | b + 1 => retryEmbed emb text b (i + 1)

/-- Modelled from the spec: a Query (§3): text or vector, top_k, and
filters over metadata. -/
structure QueryInput where
  text : String
  vector : Option (List Int)
  top_k : Nat
  filters : Metadata → Bool

/-- Modelled from the spec: the Query Engine's output: a Context Bundle
and an optional diagnostic (§4.4). -/
structure AnswerOutput where
  bundle : List (IndexEntry × Int)
  diagnostic : Option String
deriving Repr

/-- Modelled from the spec: `answer(query)` of the Query Engine (§4.4),
absent from the repository: when the query vector is absent the
Embedding Provider is invoked on the query text; its failure yields an
empty Context Bundle carrying a diagnostic rather than an error. -/
def answer (emb : String → Nat → Except EmbedErr (List Int)) (retries : Nat)
    (q : QueryInput) (idx : Index) : AnswerOutput :=
  match q.vector with
  | some v => ⟨query v q.top_k q.filters idx, none⟩
  | none =>
    match retryEmbed emb q.text retries 0 with
    | .ok v => ⟨query v q.top_k q.filters idx, none⟩
    | .error m => ⟨[], some m⟩

/-- C8: an absent query vector routes through the Embedding Provider,
and a provider failure that survives the bounded retries makes `answer`
return an empty Context Bundle with the failure message attached as a
diagnostic, never an error. -/
theorem answer_embedding_failure (emb : String → Nat → Except EmbedErr (List Int))
    (retries : Nat) (q : QueryInput) (idx : Index) (m : String)
    (hv : q.vector = none)
    (hf : retryEmbed emb q.text retries 0 = Except.error m) :
    answer emb retries q idx = ⟨[], some m⟩ := by
  rw [answer.eq_def, hv, hf]

/-- Witness for C8: a provider that fails permanently on every attempt;
`answer` on the demo index degrades to an empty bundle plus diagnostic. -/
theorem answer_embedding_failure_witness :
    answer (fun _ _ => Except.error (EmbedErr.permanent "provider down")) 2
        ⟨"AAPL outlook", none, 1, noNews⟩ demoIndex =
      ⟨[], some "provider down"⟩ :=
  answer_embedding_failure (fun _ _ => Except.error (EmbedErr.permanent "provider down"))
    2 ⟨"AAPL outlook", none, 1, noNews⟩ demoIndex "provider down" rfl rfl

/-- A portfolio holding as the repository's test suite shapes it:
symbol, quantity, current price and daily price change, with money
modelled in integer cents. -/
structure Holding where
  symbol : String
  quantity : Int
  current_price : Int
  price_change : Int
deriving DecidableEq, Repr

/-- A field value of a structured agent result. -/
inductive JValue
  | num (n : Int)
  | str (s : String)
deriving DecidableEq, Repr

/-- A structured agent result: an ordered mapping of field names to
values, the shape of the Python dict the adapter returns. -/
abbrev StructuredResult := List (String × JValue)

/-- Total portfolio value: sum of quantity times current price. -/
def portfolioValue (hs : List Holding) : Int :=
  (hs.map (fun h => h.quantity * h.current_price)).sum

/-- Daily change: sum of quantity times price change. -/
def dailyChange (hs : List Holding) : Int :=
  (hs.map (fun h => h.quantity * h.price_change)).sum

/-- Risk score: the number of holdings currently losing value. -/
def riskScore (hs : List Holding) : Int :=
  Int.ofNat (hs.filter (fun h => h.price_change < 0)).length

/-- The first failure among the three steps of `analyze`, in execution
order: portfolio-data fetch, document retrieval, text generation. -/
def firstFailure : Except String (List Holding) → Except String (List String) →
    Except String String → Option String
  | .error m, _, _ => some m
  | .ok _, .error m, _ => some m
  | .ok _, .ok _, .error m => some m
  | .ok _, .ok _, .ok _ => none

/-- The first failure among the three steps of `ask`, in execution
order: document retrieval, market-data gathering, text generation. -/
def askFirstFailure : Except String (List String) → Except String Metadata →
    Except String String → Option String
  | .error m, _, _ => some m
  | .ok _, .error m, _ => some m
  | .ok _, .ok _, .error m => some m
  | .ok _, .ok _, .ok _ => none

/-- Modelled from the spec: `analyze(structured_input)` of the Agent
Adapter (§4.5), the TradingCopilotAgent.analyze_portfolio the test suite
exercises but the repository does not contain.  The three fallible steps
are passed as their outcomes; any failure is converted at this boundary
into a result carrying an `error` field, never propagated. -/
def analyze (fetch : Except String (List Holding))
    (retrieve : Except String (List String))
    (gen : Except String String) (ts : Nat) : StructuredResult :=
  match fetch with
  | .error m => [("error", .str m)]
  | .ok holdings =>
    match retrieve with
    | .error m => [("error", .str m)]
    | .ok _docs =>
      match gen with
      | .error m => [("error", .str m)]
      | .ok analysisText =>
        [("portfolio_value", .num (portfolioValue holdings)),
         ("daily_change", .num (dailyChange holdings)),
         ("risk_score", .num (riskScore holdings)),
         ("analysis", .str analysisText),
         ("timestamp", .num (Int.ofNat ts))]

/-- Modelled from the spec: `ask(question, extra_context)` of the Agent
Adapter (§4.5), returning answer, sources and timestamp, with the same
error-catching boundary as `analyze`. -/
def ask (retrieve : Except String (List String))
    (market : Except String Metadata)
    (gen : Except String String) (ts : Nat) : StructuredResult :=
  match retrieve with
  | .error m => [("error", .str m)]
  | .ok docs =>
    match market with
    | .error m => [("error", .str m)]
    | .ok _md =>
      match gen with
      | .error m => [("error", .str m)]
      | .ok answerText =>
        [("answer", .str answerText),
         ("sources", .str (String.intercalate "; " docs)),
         ("timestamp", .num (Int.ofNat ts))]

/-- C3: the adapter's error boundary.  Whenever any step of `analyze`
(or of `ask`) fails, the call still returns a structured result whose
single field is `error`, carrying the first failing step's message; the
model is a total function, so no exception can propagate. -/
theorem adapter_converts_failures (fetch : Except String (List Holding))
    (retrieve : Except String (List String)) (market : Except String Metadata)
    (gen : Except String String) (ts : Nat) (m m' : String)
    (ha : firstFailure fetch retrieve gen = some m)
    (hb : askFirstFailure retrieve market gen = some m') :
    analyze fetch retrieve gen ts = [("error", JValue.str m)] ∧
    ask retrieve market gen ts = [("error", JValue.str m')] := by
  constructor
  · cases fetch with
    | error e => simp [firstFailure] at ha; simp [analyze, ha]
    | ok holdings =>
      cases retrieve with
      | error e => simp [firstFailure] at ha; simp [analyze, ha]
      | ok docs =>
        cases gen with
        | error e => simp [firstFailure] at ha; simp [analyze, ha]
        | ok txt => simp [firstFailure] at ha
  · cases retrieve with
    | error e => simp [askFirstFailure] at hb; simp [ask, hb]
    | ok docs =>
      cases market with
      | error e => simp [askFirstFailure] at hb; simp [ask, hb]
      | ok md =>
        cases gen with
        | error e => simp [askFirstFailure] at hb; simp [ask, hb]
        | ok txt => simp [askFirstFailure] at hb

/-- Witness for C3: the portfolio fetch raises "API Error" for
`analyze` while the market feed raises "feed down" for `ask`. -/
theorem adapter_converts_failures_witness :
    analyze (Except.error "API Error") (Except.ok ["Market Analysis"])
        (Except.ok "fine") 7 = [("error", JValue.str "API Error")] ∧
    ask (Except.ok ["Market Analysis"]) (Except.error "feed down")
        (Except.ok "fine") 7 = [("error", JValue.str "feed down")] :=
  adapter_converts_failures (Except.error "API Error")
    (Except.ok ["Market Analysis"]) (Except.error "feed down")
    (Except.ok "fine") 7 "API Error" "feed down" rfl rfl

/-- C9: on the success path `analyze` returns a structured result whose
fields are exactly portfolio_value, daily_change, risk_score, analysis
and timestamp, in that order. -/
theorem analyze_success_keys (holdings : List Holding) (docs : List String)
    (txt : String) (ts : Nat) :
    (analyze (Except.ok holdings) (Except.ok docs) (Except.ok txt) ts).map
        Prod.fst =
      ["portfolio_value", "daily_change", "risk_score", "analysis", "timestamp"] :=
  rfl

/-- A non-stale upsert's entry is the slot of its id afterwards. -/
theorem lookupEntry_upsert_fresh (idx : Index) (rid : String) (v : List Int)
    (md : Metadata) (t : Nat)
    (hfresh : (lookupEntry rid idx).all (fun e => decide (e.logical_time ≤ t)) = true) :
    lookupEntry rid (upsert rid v md t idx) = some ⟨rid, v, md, t, true⟩ := by
  cases hl : lookupEntry rid idx with
  | none => exact lookupEntry_setSlot_none rid _ t rfl idx hl
  | some e =>
    have hle : e.logical_time ≤ t := by
      rw [hl] at hfresh
      simpa [Option.all] using hfresh
    have h := lookupEntry_setSlot_some rid ⟨rid, v, md, t, true⟩ t rfl idx e hl
    rw [upsert, h, if_pos hle]

/-- C6 (amended): read-your-writes.  After a non-stale upsert of record
`r` (its logical_time at least any stored one for that id), any query
whose filters accept `r` and for which at most `top_k` eligible entries
rank weakly above `r` returns `r` among its results. -/
theorem upsert_read_your_writes (idx : Index) (rid : String) (v : List Int)
    (md : Metadata) (t : Nat) (qv : List Int) (k : Nat) (filt : Metadata → Bool)
    (hfresh : (lookupEntry rid idx).all (fun e => decide (e.logical_time ≤ t)) = true)
    (hfilt : filt md = true)
    (hrank : (scored qv (eligible filt (upsert rid v md t idx))).countP
        (fun q => decide (rankRel q
          (⟨rid, v, md, t, true⟩, score qv ⟨rid, v, md, t, true⟩))) ≤ k) :
    (⟨rid, v, md, t, true⟩, score qv ⟨rid, v, md, t, true⟩) ∈
      query qv k filt (upsert rid v md t idx) := by
  set E : IndexEntry := ⟨rid, v, md, t, true⟩ with hE
  set p : IndexEntry × Int := (E, score qv E) with hp
  have hmemE : E ∈ upsert rid v md t idx :=
    List.mem_of_find?_eq_some (lookupEntry_upsert_fresh idx rid v md t hfresh)
  have helig : E ∈ eligible filt (upsert rid v md t idx) := by
    refine List.mem_filter.2 ⟨hmemE, ?_⟩
    simp [hE, hfilt]
  have hscored : p ∈ scored qv (eligible filt (upsert rid v md t idx)) :=
    List.mem_map.2 ⟨E, helig, rfl⟩
  set sorted := List.insertionSort rankRel
    (scored qv (eligible filt (upsert rid v md t idx))) with hsd
  have hperm : List.Perm sorted
      (scored qv (eligible filt (upsert rid v md t idx))) :=
    List.perm_insertionSort rankRel _
  have hsorted : sorted.Pairwise rankRel := List.sorted_insertionSort rankRel _
  by_contra hnot
  have hpsorted : p ∈ sorted := hperm.mem_iff.2 hscored
  have hsplit : sorted.take k ++ sorted.drop k = sorted := List.take_append_drop k sorted
  have hdrop : p ∈ sorted.drop k := by
    rcases List.mem_append.1 (hsplit ▸ hpsorted) with h | h
    · exact absurd h hnot
    · exact h
  have hPw := List.pairwise_append.1 (hsplit ▸ hsorted)
  have htake_all : ∀ a ∈ sorted.take k, (fun q => decide (rankRel q p)) a = true := by
    intro a ha
    exact decide_eq_true (hPw.2.2 a ha p hdrop)
  have hlen : (sorted.take k).length = k := by
    rw [List.length_take]
    have hk : k < sorted.length := by
      by_contra hge
      have hnil : sorted.drop k = [] := List.drop_eq_nil_of_le (by omega)
      rw [hnil] at hdrop
      exact absurd hdrop (List.not_mem_nil p)
    omega
  have hcount_take : (sorted.take k).countP (fun q => decide (rankRel q p)) = k := by
    rw [List.countP_eq_length.2 htake_all, hlen]
  have hcount_drop : 0 < (sorted.drop k).countP (fun q => decide (rankRel q p)) := by
    rw [List.countP_pos_iff]
    exact ⟨p, hdrop, decide_eq_true (Or.inr ⟨rfl, le_refl _⟩)⟩
  have hcount_split : sorted.countP (fun q => decide (rankRel q p)) =
      (sorted.take k).countP (fun q => decide (rankRel q p)) +
        (sorted.drop k).countP (fun q => decide (rankRel q p)) := by
    conv_lhs => rw [← hsplit]
    rw [List.countP_append]
  have hcount_perm := hperm.countP_eq (fun q => decide (rankRel q p))
  omega

/-- Witness for C6 (amended): a fresh upsert of "doc-1" into the demo
index at time 9; it ranks first for the query vector and is returned. -/
theorem upsert_read_your_writes_witness :
    (⟨"doc-1", [7, 0], [], 9, true⟩,
        score [2, 1] ⟨"doc-1", [7, 0], [], 9, true⟩) ∈
      query [2, 1] 2 noNews (upsert "doc-1" [7, 0] [] 9 demoIndex) :=
  upsert_read_your_writes demoIndex "doc-1" [7, 0] [] 9 [2, 1] 2 noNews
    (by decide) (by decide) (by decide)

/-- C6 counterexample: read-your-writes fails for a stale upsert.  With
"doc-1" stored at logical_time 5, the upsert of a new "doc-1" version at
logical_time 3 satisfies the claim's filter and ranking conditions (its
score 10 beats the only eligible entry's score 1 for top_k = 1), yet the
query does not return it: the stale write was silently dropped. -/
theorem read_your_writes_counterexample :
    noNews [] = true ∧
    (scored [1] (eligible noNews
        (upsert "doc-1" [10] [] 3 (upsert "doc-1" [1] [] 5 [])))).countP
        (fun q => decide (rankRel q (⟨"doc-1", [10], [], 3, true⟩,
          score [1] ⟨"doc-1", [10], [], 3, true⟩))) ≤ 1 ∧
    (⟨"doc-1", [10], [], 3, true⟩, score [1] ⟨"doc-1", [10], [], 3, true⟩) ∉
      query [1] 1 noNews (upsert "doc-1" [10] [] 3 (upsert "doc-1" [1] [] 5 [])) := by
  decide

/-- The lines of the `sample_test` string constant embedded in script.py
(lines 120-324), with Python escape processing of the triple-quoted
literal applied; the final empty line reflects the trailing newline. -/
def sampleTestLines : List String :=
  [
   "\"\"\"",
   "Test suite for the real-time fintech RAG pipeline.",
   "\"\"\"",
   "",
   "import pytest",
   "import asyncio",
   "from unittest.mock import Mock, patch, AsyncMock",
   "from datetime import datetime",
   "",
   "from src.fintech_rag.core.pipeline import RealtimeFintechPipeline",
   "from src.fintech_rag.agents.trading_copilot import TradingCopilotAgent",
   "",
   "",
   "class TestRealtimeFintechPipeline:",
   "    \"\"\"Test suite for the main pipeline.\"\"\"",
   "    ",
   "    @pytest.fixture",
   "    def mock_config(self):",
   "        \"\"\"Mock configuration for testing.\"\"\"",
   "        return \x7b",
   "            \x27pathway\x27: \x7b\x27license_key\x27: \x27test-key\x27\x7d,",
   "            \x27llm\x27: \x7b",
   "                \x27model\x27: \x27gpt-3.5-turbo\x27,",
   "                \x27temperature\x27: 0.1,",
   "                \x27max_tokens\x27: 1000,",
   "                \x27embedding_model\x27: \x27text-embedding-ada-002\x27",
   "            \x7d,",
   "            \x27data_sources\x27: \x7b",
   "                \x27documents\x27: \x7b",
   "                    \x27enabled\x27: True,",
   "                    \x27watch_directories\x27: [\x27./test_data\x27]",
   "                \x7d,",
   "                \x27market_data\x27: \x7b\x27enabled\x27: False\x7d,",
   "                \x27news_feeds\x27: \x7b\x27enabled\x27: False\x7d,",
   "                \x27sanctions\x27: \x7b\x27enabled\x27: False\x7d",
   "            \x7d,",
   "            \x27app\x27: \x7b\x27host\x27: \x270.0.0.0\x27, \x27port\x27: 8000\x7d",
   "        \x7d",
   "    ",
   "    def test_pipeline_initialization(self, mock_config):",
   "        \"\"\"Test pipeline initializes correctly.\"\"\"",
   "        with patch(\x27pathway.set_license_key\x27):",
   "            pipeline = RealtimeFintechPipeline(mock_config)",
   "            assert pipeline.config == mock_config",
   "    ",
   "    @patch(\x27pathway.io.fs.read\x27)",
   "    def test_create_data_sources(self, mock_fs_read, mock_config):",
   "        \"\"\"Test data source creation.\"\"\"",
   "        with patch(\x27pathway.set_license_key\x27):",
   "            pipeline = RealtimeFintechPipeline(mock_config)",
   "            sources = pipeline.create_data_sources()",
   "            ",
   "            # Should create one source for documents",
   "            assert len(sources) == 1",
   "            mock_fs_read.assert_called_once()",
   "",
   "",
   "class TestTradingCopilotAgent:",
   "    \"\"\"Test suite for the trading copilot agent.\"\"\"",
   "    ",
   "    @pytest.fixture",
   "    def mock_config(self):",
   "        \"\"\"Mock configuration for agent testing.\"\"\"",
   "        return \x7b",
   "            \x27agents\x27: \x7b",
   "                \x27trading_copilot\x27: \x7b",
   "                    \x27risk_threshold\x27: 0.8,",
   "                    \x27portfolio_monitoring\x27: True",
   "                \x7d",
   "            \x7d",
   "        \x7d",
   "    ",
   "    @pytest.fixture",
   "    def trading_agent(self, mock_config):",
   "        \"\"\"Create trading agent for testing.\"\"\"",
   "        with patch(\x27src.fintech_rag.core.retrieval.DocumentRetriever\x27), \\",
   "             patch(\x27src.fintech_rag.core.llm_interface.LLMInterface\x27), \\",
   "             patch(\x27src.fintech_rag.data_sources.market_data.MarketDataConnector\x27):",
   "            return TradingCopilotAgent(mock_config)",
   "    ",
   "    @pytest.mark.asyncio",
   "    async def test_analyze_portfolio_success(self, trading_agent):",
   "        \"\"\"Test successful portfolio analysis.\"\"\"",
   "        # Mock portfolio data",
   "        portfolio = \x7b",
   "            \x27holdings\x27: [",
   "                \x7b\x27symbol\x27: \x27AAPL\x27, \x27quantity\x27: 100\x7d,",
   "                \x7b\x27symbol\x27: \x27GOOGL\x27, \x27quantity\x27: 50\x7d",
   "            ]",
   "        \x7d",
   "        ",
   "        # Mock dependencies",
   "        trading_agent._get_portfolio_data = AsyncMock(return_value=[",
   "            \x7b\x27symbol\x27: \x27AAPL\x27, \x27quantity\x27: 100, \x27current_price\x27: 150.0, \x27price_change\x27: 2.5\x7d,",
   "            \x7b\x27symbol\x27: \x27GOOGL\x27, \x27quantity\x27: 50, \x27current_price\x27: 2500.0, \x27price_change\x27: -10.0\x7d",
   "        ])",
   "        ",
   "        trading_agent.retriever.get_relevant_documents = AsyncMock(return_value=[",
   "            \x7b\x27title\x27: \x27Market Analysis\x27, \x27summary\x27: \x27Positive outlook for tech stocks\x27\x7d",
   "        ])",
   "        ",
   "        trading_agent.llm.generate_response = AsyncMock(return_value=\"Portfolio shows strong performance\")",
   "        ",
   "        result = await trading_agent.analyze_portfolio(portfolio)",
   "        ",
   "        # Verify result structure",
   "        assert \x27portfolio_value\x27 in result",
   "        assert \x27daily_change\x27 in result",
   "        assert \x27risk_score\x27 in result",
   "        assert \x27analysis\x27 in result",
   "        assert \x27timestamp\x27 in result",
   "    ",
   "    @pytest.mark.asyncio",
   "    async def test_analyze_portfolio_error_handling(self, trading_agent):",
   "        \"\"\"Test portfolio analysis error handling.\"\"\"",
   "        portfolio = \x7b\x27holdings\x27: []\x7d",
   "        ",
   "        # Mock an exception",
   "        trading_agent._get_portfolio_data = AsyncMock(side_effect=Exception(\"API Error\"))",
   "        ",
   "        result = await trading_agent.analyze_portfolio(portfolio)",
   "        ",
   "        # Should return error information",
   "        assert \x27error\x27 in result",
   "        assert \x27API Error\x27 in result[\x27error\x27]",
   "    ",
   "    @pytest.mark.asyncio",
   "    async def test_answer_trading_question(self, trading_agent):",
   "        \"\"\"Test trading question answering.\"\"\"",
   "        question = \"What is the outlook for AAPL stock?\"",
   "        ",
   "        trading_agent.retriever.get_relevant_documents = AsyncMock(return_value=[",
   "            \x7b\x27content\x27: \x27AAPL stock analysis shows positive momentum\x27\x7d",
   "        ])",
   "        ",
   "        trading_agent._get_relevant_market_data = AsyncMock(return_value=\x7b",
   "            \x27AAPL\x27: \x7b\x27price\x27: 150.0, \x27change\x27: 2.5\x7d",
   "        \x7d)",
   "        ",
   "        trading_agent.llm.generate_response = AsyncMock(return_value=\"AAPL shows strong growth potential\")",
   "        ",
   "        response = await trading_agent.answer_trading_question(question)",
   "        ",
   "        assert isinstance(response, str)",
   "        assert len(response) > 0",
   "    ",
   "    def test_risk_threshold_configuration(self, trading_agent):",
   "        \"\"\"Test risk threshold is properly configured.\"\"\"",
   "        assert trading_agent.risk_threshold == 0.8",
   "",
   "",
   "@pytest.mark.integration",
   "class TestEndToEndFlow:",
   "    \"\"\"Integration tests for the complete system.\"\"\"",
   "    ",
   "    @pytest.mark.asyncio",
   "    async def test_data_ingestion_to_query_flow(self):",
   "        \"\"\"Test complete flow from data ingestion to query response.\"\"\"",
   "        # This would test the entire pipeline end-to-end",
   "        # Mock file system changes, verify they are picked up,",
   "        # indexed, and reflected in query responses",
   "        pass",
   "    ",
   "    def test_real_time_update_detection(self):",
   "        \"\"\"Test that system detects and processes updates in real-time.\"\"\"",
   "        # Add a file to watched directory",
   "        # Verify it gets processed within expected timeframe",
   "        pass",
   "",
   "",
   "class TestDataSources:",
   "    \"\"\"Test data source connectors.\"\"\"",
   "    ",
   "    def test_market_data_connector(self):",
   "        \"\"\"Test market data API connections.\"\"\"",
   "        pass",
   "    ",
   "    def test_news_feed_connector(self):",
   "        \"\"\"Test news feed processing.\"\"\" ",
   "        pass",
   "    ",
   "    def test_sanctions_monitor(self):",
   "        \"\"\"Test sanctions list monitoring.\"\"\"",
   "        pass",
   "",
   "",
   "class TestAPI:",
   "    \"\"\"Test API endpoints.\"\"\"",
   "    ",
   "    def test_health_endpoint(self):",
   "        \"\"\"Test health check endpoint.\"\"\"",
   "        pass",
   "    ",
   "    def test_chat_endpoint(self):",
   "        \"\"\"Test chat interface.\"\"\"",
   "        pass",
   "    ",
   "    def test_portfolio_analysis_endpoint(self):",
   "        \"\"\"Test portfolio analysis API.\"\"\"",
   "        pass",
   "",
   "",
   "if __name__ == \x27__main__\x27:",
   "    pytest.main([\x27-v\x27, __file__])",
   ""]

/-- The lines of the committed file src/test_main.py, embedded verbatim;
the file does not end with a newline, so there is no trailing empty
line. -/
def testMainLines : List String :=
  [
   "\"\"\"",
   "Test suite for the real-time fintech RAG pipeline.",
   "\"\"\"",
   "",
   "import pytest",
   "import asyncio",
   "from unittest.mock import Mock, patch, AsyncMock",
   "from datetime import datetime",
   "",
   "from src.fintech_rag.core.pipeline import RealtimeFintechPipeline",
   "from src.fintech_rag.agents.trading_copilot import TradingCopilotAgent",
   "",
   "",
   "class TestRealtimeFintechPipeline:",
   "    \"\"\"Test suite for the main pipeline.\"\"\"",
   "",
   "    @pytest.fixture",
   "    def mock_config(self):",
   "        \"\"\"Mock configuration for testing.\"\"\"",
   "        return \x7b",
   "            \x27pathway\x27: \x7b\x27license_key\x27: \x27test-key\x27\x7d,",
   "            \x27llm\x27: \x7b",
   "                \x27model\x27: \x27gpt-3.5-turbo\x27,",
   "                \x27temperature\x27: 0.1,",
   "                \x27max_tokens\x27: 1000,",
   "                \x27embedding_model\x27: \x27text-embedding-ada-002\x27",
   "            \x7d,",
   "            \x27data_sources\x27: \x7b",
   "                \x27documents\x27: \x7b",
   "                    \x27enabled\x27: True,",
   "                    \x27watch_directories\x27: [\x27./test_data\x27]",
   "                \x7d,",
   "                \x27market_data\x27: \x7b\x27enabled\x27: False\x7d,",
   "                \x27news_feeds\x27: \x7b\x27enabled\x27: False\x7d,",
   "                \x27sanctions\x27: \x7b\x27enabled\x27: False\x7d",
   "            \x7d,",
   "            \x27app\x27: \x7b\x27host\x27: \x270.0.0.0\x27, \x27port\x27: 8000\x7d",
   "        \x7d",
   "",
   "    def test_pipeline_initialization(self, mock_config):",
   "        \"\"\"Test pipeline initializes correctly.\"\"\"",
   "        with patch(\x27pathway.set_license_key\x27):",
   "            pipeline = RealtimeFintechPipeline(mock_config)",
   "            assert pipeline.config == mock_config",
   "",
   "    @patch(\x27pathway.io.fs.read\x27)",
   "    def test_create_data_sources(self, mock_fs_read, mock_config):",
   "        \"\"\"Test data source creation.\"\"\"",
   "        with patch(\x27pathway.set_license_key\x27):",
   "            pipeline = RealtimeFintechPipeline(mock_config)",
   "            sources = pipeline.create_data_sources()",
   "",
   "            # Should create one source for documents",
   "            assert len(sources) == 1",
   "            mock_fs_read.assert_called_once()",
   "",
   "",
   "class TestTradingCopilotAgent:",
   "    \"\"\"Test suite for the trading copilot agent.\"\"\"",
   "",
   "    @pytest.fixture",
   "    def mock_config(self):",
   "        \"\"\"Mock configuration for agent testing.\"\"\"",
   "        return \x7b",
   "            \x27agents\x27: \x7b",
   "                \x27trading_copilot\x27: \x7b",
   "                    \x27risk_threshold\x27: 0.8,",
   "                    \x27portfolio_monitoring\x27: True",
   "                \x7d",
   "            \x7d",
   "        \x7d",
   "",
   "    @pytest.fixture",
   "    def trading_agent(self, mock_config):",
   "        \"\"\"Create trading agent for testing.\"\"\"",
   "        with patch(\x27src.fintech_rag.core.retrieval.DocumentRetriever\x27), \\",
   "             patch(\x27src.fintech_rag.core.llm_interface.LLMInterface\x27), \\",
   "             patch(\x27src.fintech_rag.data_sources.market_data.MarketDataConnector\x27):",
   "            return TradingCopilotAgent(mock_config)",
   "",
   "    @pytest.mark.asyncio",
   "    async def test_analyze_portfolio_success(self, trading_agent):",
   "        \"\"\"Test successful portfolio analysis.\"\"\"",
   "        # Mock portfolio data",
   "        portfolio = \x7b",
   "            \x27holdings\x27: [",
   "                \x7b\x27symbol\x27: \x27AAPL\x27, \x27quantity\x27: 100\x7d,",
   "                \x7b\x27symbol\x27: \x27GOOGL\x27, \x27quantity\x27: 50\x7d",
   "            ]",
   "        \x7d",
   "",
   "        # Mock dependencies",
   "        trading_agent._get_portfolio_data = AsyncMock(return_value=[",
   "            \x7b\x27symbol\x27: \x27AAPL\x27, \x27quantity\x27: 100, \x27current_price\x27: 150.0, \x27price_change\x27: 2.5\x7d,",
   "            \x7b\x27symbol\x27: \x27GOOGL\x27, \x27quantity\x27: 50, \x27current_price\x27: 2500.0, \x27price_change\x27: -10.0\x7d",
   "        ])",
   "",
   "        trading_agent.retriever.get_relevant_documents = AsyncMock(return_value=[",
   "            \x7b\x27title\x27: \x27Market Analysis\x27, \x27summary\x27: \x27Positive outlook for tech stocks\x27\x7d",
   "        ])",
   "",
   "        trading_agent.llm.generate_response = AsyncMock(return_value=\"Portfolio shows strong performance\")",
   "",
   "        result = await trading_agent.analyze_portfolio(portfolio)",
   "",
   "        # Verify result structure",
   "        assert \x27portfolio_value\x27 in result",
   "        assert \x27daily_change\x27 in result",
   "        assert \x27risk_score\x27 in result",
   "        assert \x27analysis\x27 in result",
   "        assert \x27timestamp\x27 in result",
   "",
   "    @pytest.mark.asyncio",
   "    async def test_analyze_portfolio_error_handling(self, trading_agent):",
   "        \"\"\"Test portfolio analysis error handling.\"\"\"",
   "        portfolio = \x7b\x27holdings\x27: []\x7d",
   "",
   "        # Mock an exception",
   "        trading_agent._get_portfolio_data = AsyncMock(side_effect=Exception(\"API Error\"))",
   "",
   "        result = await trading_agent.analyze_portfolio(portfolio)",
   "",
   "        # Should return error information",
   "        assert \x27error\x27 in result",
   "        assert \x27API Error\x27 in result[\x27error\x27]",
   "",
   "    @pytest.mark.asyncio",
   "    async def test_answer_trading_question(self, trading_agent):",
   "        \"\"\"Test trading question answering.\"\"\"",
   "        question = \"What is the outlook for AAPL stock?\"",
   "",
   "        trading_agent.retriever.get_relevant_documents = AsyncMock(return_value=[",
   "            \x7b\x27content\x27: \x27AAPL stock analysis shows positive momentum\x27\x7d",
   "        ])",
   "",
   "        trading_agent._get_relevant_market_data = AsyncMock(return_value=\x7b",
   "            \x27AAPL\x27: \x7b\x27price\x27: 150.0, \x27change\x27: 2.5\x7d",
   "        \x7d)",
   "",
   "        trading_agent.llm.generate_response = AsyncMock(return_value=\"AAPL shows strong growth potential\")",
   "",
   "        response = await trading_agent.answer_trading_question(question)",
   "",
   "        assert isinstance(response, str)",
   "        assert len(response) > 0",
   "",
   "    def test_risk_threshold_configuration(self, trading_agent):",
   "        \"\"\"Test risk threshold is properly configured.\"\"\"",
   "        assert trading_agent.risk_threshold == 0.8",
   "",
   "",
   "@pytest.mark.integration",
   "class TestEndToEndFlow:",
   "    \"\"\"Integration tests for the complete system.\"\"\"",
   "",
   "    @pytest.mark.asyncio",
   "    async def test_data_ingestion_to_query_flow(self):",
   "        \"\"\"Test complete flow from data ingestion to query response.\"\"\"",
   "        # This would test the entire pipeline end-to-end",
   "        # Mock file system changes, verify they are picked up,",
   "        # indexed, and reflected in query responses",
   "        pass",
   "",
   "    def test_real_time_update_detection(self):",
   "        \"\"\"Test that system detects and processes updates in real-time.\"\"\"",
   "        # Add a file to watched directory",
   "        # Verify it gets processed within expected timeframe",
   "        pass",
   "",
   "",
   "class TestDataSources:",
   "    \"\"\"Test data source connectors.\"\"\"",
   "",
   "    def test_market_data_connector(self):",
   "        \"\"\"Test market data API connections.\"\"\"",
   "        pass",
   "",
   "    def test_news_feed_connector(self):",
   "        \"\"\"Test news feed processing.\"\"\" ",
   "        pass",
   "",
   "    def test_sanctions_monitor(self):",
   "        \"\"\"Test sanctions list monitoring.\"\"\"",
   "        pass",
   "",
   "",
   "class TestAPI:",
   "    \"\"\"Test API endpoints.\"\"\"",
   "",
   "    def test_health_endpoint(self):",
   "        \"\"\"Test health check endpoint.\"\"\"",
   "        pass",
   "",
   "    def test_chat_endpoint(self):",
   "        \"\"\"Test chat interface.\"\"\"",
   "        pass",
   "",
   "    def test_portfolio_analysis_endpoint(self):",
   "        \"\"\"Test portfolio analysis API.\"\"\"",
   "        pass",
   "",
   "",
   "if __name__ == \x27__main__\x27:",
   "    pytest.main([\x27-v\x27, __file__])"]

/-- Modelled from the source: the value of the `sample_test` constant of
script.py as a single string, its lines joined by newlines. -/
def sample_test : String := String.intercalate "\n" sampleTestLines

/-- The full content of the committed file src/test_main.py. -/
def test_main_py : String := String.intercalate "\n" testMainLines

/-- Modelled from the source: script.py opens the path test_main.py for
writing and writes exactly `sample_test` to it (lines 621-622), so the
written content is `sample_test` itself. -/
def writtenTestMain : String := sample_test

/-- Normalization forced by the counterexample: a line consisting only of
whitespace becomes the empty line; any other line is untouched. -/
def blankToEmpty (s : String) : String :=
  if s.data.all (fun c => c == ' ') then "" else s

/-- C10 counterexample: the content the generator writes to test_main.py
is not character-for-character identical to the committed
src/test_main.py: their line decompositions already differ (the embedded
copy carries trailing spaces on 31 whitespace-only lines, and its final
empty line reflects a trailing newline the committed file lacks), and
the contents are the newline-joins of these lines. -/
theorem generated_test_not_identical : sampleTestLines ≠ testMainLines := by
  decide

set_option maxRecDepth 16384 in
/-- C10 (amended): the generator writes exactly `sample_test` to the
path test_main.py, and that content equals the committed
src/test_main.py up to whitespace normalization: after replacing each
whitespace-only line by an empty line, the written lines are exactly the
committed file's lines followed by one empty line (the trailing
newline). -/
theorem generated_test_matches_normalized :
    sampleTestLines.map blankToEmpty = testMainLines ++ [""] := by
  decide

end FintechRag
